import Mathlib

/-!
Shallow embedding of the drag-to-reschedule engine of
`src/hooks/useDragMoveEvent.tsx`.

Modelling conventions:
- A JavaScript `Date` is its time value: `JsDate.valid t` for the epoch
  value `t` in milliseconds, `JsDate.invalid` for an Invalid Date (time
  value NaN).  Calendar field getters/setters (`getMinutes`, `getDate`,
  `setFullYear`, …) are modelled over a fixed-offset (DST-free) proleptic
  Gregorian clock, matching the spec's "daylight-agnostic time math" and
  "no cross-timezone normalization".  The field-normalisation semantics of
  the setters (out-of-range values roll over) follows ECMAScript
  `MakeDay`/`MakeTime`; any NaN argument makes the time value NaN.
- Pointer coordinates are rationals (`clientX`/`clientY` may be fractional);
  `Math.round` on a finite value is `⌊x + 1/2⌋`.
- A destructured position of `dateAttr.split('-').map(Number)` is a `JsVal`:
  `undef` when the position is missing (`undefined` — `map` never touches
  it), `nan` when `Number` returned NaN, `num v` otherwise.  The source's
  guard is `Number.isNaN`, which is true only for the number NaN — an
  `undefined` position PASSES the guard and reaches `setFullYear`, where it
  coerces to NaN and yields an Invalid Date.
- `Number(str)` is modelled for the token shapes the drop-zone contract
  (`YYYY-MM-DD` pieces) can produce: optionally signed decimal integer
  strings parse to their value, a whitespace-only or empty string parses
  to 0, and anything else is NaN.  Non-integer numeric literal forms
  (floats, hex, exponents) are outside the modelled input space.
- The DOM hit-test (`document.elementFromPoint` + `closest('[data-calendar-date]')`
  + `getAttribute`) is an input to each move: `hover : Option String` is the
  attribute value of the nearest marker under the pointer, `none` when there
  is no element, no marker ancestor, or no attribute.  `some ""` models an
  empty attribute value, which is falsy in the source's `if (dateAttr)` test.
- React state cells (`useState`) and refs (`useRef`) are fields of one
  `EngineState` record updated synchronously; the commit callback is
  modelled by the `Option (JsDate × JsDate)` a release step emits (`none` =
  the callback was not invoked, `some (a, b)` = it was invoked once with
  that pair; Date objects are truthy even when Invalid, so the source's
  `finalStart && finalEnd` test only checks non-null).  Its presence
  (`onDragEnd` supplied or not) is the flag `hasCb`.
-/

namespace DragMove

/-- Milliseconds in one minute. -/
def msPerMinute : Int := 60000

/-- Milliseconds in one day. -/
def msPerDay : Int := 86400000

/-- JavaScript `Math.round` on a finite rational: round half toward +∞. -/
def jsRound (x : ℚ) : Int := ⌊x + 1/2⌋

/-- A calendar date: year, 1-based month, day of month. -/
structure Civil where
  year : Int
  month : Int
  day : Int
deriving DecidableEq, Repr

/-- Day number (days since 1970-01-01) of a civil date with `m ∈ [1,12]`,
`d ∈ [1,31]`; proleptic Gregorian calendar. -/
def daysFromCivil (y m d : Int) : Int :=
  let yAdj := if m ≤ 2 then y - 1 else y
  let era := yAdj / 400
  let yoe := yAdj - era * 400
  let mp := if m > 2 then m - 3 else m + 9
  let doy := (153 * mp + 2) / 5 + d - 1
  let doe := yoe * 365 + yoe / 4 - yoe / 100 + doy
  era * 146097 + doe - 719468

/-- Civil date of a day number (inverse of `daysFromCivil`). -/
def civilFromDays (z : Int) : Civil :=
  let zs := z + 719468
  let era := zs / 146097
  let doe := zs - era * 146097
  let yoe := (doe - doe / 1460 + doe / 36524 - doe / 146096) / 365
  let y := yoe + era * 400
  let doy := doe - (365 * yoe + yoe / 4 - yoe / 100)
  let mp := (5 * doy + 2) / 153
  let d := doy - (153 * mp + 2) / 5 + 1
  let m := if mp < 10 then mp + 3 else mp - 9
  ⟨if m ≤ 2 then y + 1 else y, m, d⟩

/-- Milliseconds elapsed since local midnight. -/
def timeOfDay (t : Int) : Int := t % msPerDay

/-- Day number containing instant `t`. -/
def dayNumber (t : Int) : Int := t / msPerDay

/-- JS `Date.prototype.getFullYear` on a valid date. -/
def getFullYear (t : Int) : Int := (civilFromDays (dayNumber t)).year

/-- JS `Date.prototype.getMonth` on a valid date (0-based, as in JS). -/
def getMonth (t : Int) : Int := (civilFromDays (dayNumber t)).month - 1

/-- JS `Date.prototype.getDate` on a valid date (day of month, 1-based). -/
def getDate (t : Int) : Int := (civilFromDays (dayNumber t)).day

/-- JS `Date.prototype.getHours` on a valid date. -/
def getHours (t : Int) : Int := timeOfDay t / 3600000

/-- JS `Date.prototype.getMinutes` on a valid date. -/
def getMinutes (t : Int) : Int := (timeOfDay t / msPerMinute) % 60

/-- JS `Date.prototype.setMinutes v` on a valid date with an integer `v`:
replace the minutes field, letting out-of-range values roll over into
hours/days (seconds and ms kept). -/
def setMinutes (t v : Int) : Int := t + (v - getMinutes t) * msPerMinute

/-- JS `Date.prototype.setDate v` on a valid date with an integer `v`:
replace the day-of-month field, letting out-of-range values roll over into
adjacent months (time of day kept). -/
def setDate (t v : Int) : Int := t + (v - getDate t) * msPerDay

/-- Day number of ECMAScript `MakeDay y m d` with 0-based month `m`:
out-of-range months roll into years, out-of-range days roll into months. -/
def ymdToDayNumber (y m d : Int) : Int :=
  let mTotal := y * 12 + m
  daysFromCivil (mTotal / 12) (mTotal % 12 + 1) 1 + (d - 1)

/-- JS `Date.prototype.setFullYear y m d` on a valid date with integer
arguments (0-based month `m`): replace the year/month/day fields, keeping
the time of day. -/
def setFullYear (t y m d : Int) : Int :=
  ymdToDayNumber y m d * msPerDay + timeOfDay t

/-- A JS `Date`: a finite time value, or an Invalid Date (time value NaN). -/
inductive JsDate where
  | invalid
  | valid (t : Int)
deriving DecidableEq, Repr

/-- JS `new Date(d.getTime() + k)`: NaN propagates, so an Invalid Date
stays Invalid. -/
def jsAddMs (d : JsDate) (k : Int) : JsDate :=
  match d with
  | .invalid => .invalid
  | .valid t => .valid (t + k)

/-- JS `Date.prototype.getMinutes` on any date: NaN (`none`) when Invalid. -/
def jsGetMinutes : JsDate → Option Int
  | .invalid => none
  | .valid t => some (getMinutes t)

/-- One destructured position of `split('-').map(Number)`: missing
(`undefined`), the number NaN, or a (modelled, integer) number. -/
inductive JsVal where
  | undef
  | nan
  | num (v : Int)
deriving DecidableEq, Repr

/-- JS `Number.isNaN`: true only for the number NaN — `undefined` is not a
number, so `Number.isNaN(undefined)` is false. -/
def jsIsNaN : JsVal → Bool
  | .nan => true
  | _ => false

/-- JS subtraction `x - 1` under `ToNumber` coercion: `undefined` and NaN
both give NaN. -/
def jsSub1 : JsVal → JsVal
  | .num v => .num (v - 1)
  | _ => .nan

/-- JS `d.setFullYear(y, m, d)` under `ToNumber` coercion of the three
arguments: any `undefined`/NaN argument makes the time value NaN (an
Invalid Date); with three numbers it is the calendar `setFullYear`. -/
def setFullYearJs (t : Int) (y m d : JsVal) : JsDate :=
  match y, m, d with
  | .num yv, .num mv, .num dv => .valid (setFullYear t yv mv dv)
  | _, _, _ => .invalid

/-- Split a character list at every `'-'`, as JS `str.split('-')`. -/
def splitDash : List Char → List (List Char)
  | [] => [[]]
  | c :: rest =>
    let r := splitDash rest
    if c = '-' then [] :: r
    else
      match r with
      | h :: t => (c :: h) :: t
      | [] => [[c]]

/-- Strip leading and trailing whitespace. -/
def trimChars (l : List Char) : List Char :=
  ((l.dropWhile Char.isWhitespace).reverse.dropWhile Char.isWhitespace).reverse

/-- Decimal value of a digit list. -/
def digitsVal (l : List Char) : Int :=
  (l.foldl (fun n c => n * 10 + (c.toNat - 48)) 0 : Nat)

/-- JS `Number(str)` restricted to integer-shaped tokens (see file header):
`none` models NaN. -/
def jsNumber (l : List Char) : Option Int :=
  let t := trimChars l
  if t = [] then some 0
  else
    match t with
    | '-' :: ds => if ds ≠ [] ∧ ds.all Char.isDigit then some (-(digitsVal ds)) else none
    | '+' :: ds => if ds ≠ [] ∧ ds.all Char.isDigit then some (digitsVal ds) else none
    | ds => if ds.all Char.isDigit then some (digitsVal ds) else none

/-- Position `i` of `dateAttr.split('-').map(Number)` as the destructuring
`const [year, month, day] = …` sees it: `undef` when the split has no such
position (destructuring yields `undefined`, which `map` never produced),
`nan` when `Number` returned NaN on the token, `num v` otherwise. -/
def destructured (s : String) (i : Nat) : JsVal :=
  match (splitDash s.data)[i]? with
  | none => .undef
  | some p =>
    match jsNumber p with
    | none => .nan
    | some v => .num v

/-- Engine configuration: `{ lockTime, pxPerDay, pxPerMinute }` with the
source's defaults `false`, `40`, `1`. -/
structure DragConfig where
  lockTime : Bool
  pxPerDay : ℚ
  pxPerMinute : ℚ
deriving DecidableEq, Repr

/-- The defaults applied by the hook when no options are given. -/
def defaultConfig : DragConfig := ⟨false, 40, 1⟩

/-- The engine's mutable cells: `draggingRef`, the published `isDragging`
state, `startPosRef` (anchor), `originalStartRef`/`originalEndRef`, and the
published `previewStart`/`previewEnd` states (each a possibly-Invalid
`Date`, or null). -/
structure EngineState where
  dragging : Bool
  isDragging : Bool
  startPos : Option (ℚ × ℚ)
  originalStart : Option Int
  originalEnd : Option Int
  previewStart : Option JsDate
  previewEnd : Option JsDate
deriving DecidableEq, Repr

/-- State at mount: every ref null, every flag false. -/
def initState : EngineState :=
  ⟨false, false, none, none, none, none, none⟩

/-- The `useEffect` on `[event]`: binding or re-binding the source event
snapshots (or clears) the originals and clears the preview pair. -/
def bindEvent (ev : Option (Int × Int)) (s : EngineState) : EngineState :=
  match ev with
  | some (st, en) =>
    { s with originalStart := some st, originalEnd := some en,
             previewStart := none, previewEnd := none }
  | none =>
    { s with originalStart := none, originalEnd := none,
             previewStart := none, previewEnd := none }

/-- The inner `onMove(clientX, clientY)` of the hook.  `hover` is the
drop-zone attribute under the pointer (see file header).  The early return
`if (!draggingRef.current || !originalStartRef.current || !originalEndRef.current)`
is the fallthrough case; the non-null assertion on `startPosRef.current!`
is modelled by also requiring the anchor (it is non-null in every state
where `dragging` holds, see `run_dragging_startPos`).  In the snap branch
the three destructured positions are guarded by `Number.isNaN` only — a
missing (`undefined`) position passes the guard and `setFullYear` then
produces an Invalid Date. -/
def onMove (cfg : DragConfig) (hover : Option String) (clientX clientY : ℚ)
    (s : EngineState) : EngineState :=
  match s.dragging, s.originalStart, s.originalEnd, s.startPos with
  | true, some os, some oe, some anchor =>
    let deltaX := clientX - anchor.1
    let deltaY := clientY - anchor.2
    let dayOffset := jsRound (deltaY / cfg.pxPerDay)
    let minuteOffset := if cfg.lockTime then 0 else jsRound (deltaX / cfg.pxPerMinute)
    let ns0 := if cfg.lockTime then os else setMinutes os (getMinutes os + minuteOffset)
    let ns : JsDate :=
      match hover with
      | some attr =>
        if attr = "" then JsDate.valid (setDate ns0 (getDate ns0 + dayOffset))
        else
          let year := destructured attr 0
          let month := destructured attr 1
          let day := destructured attr 2
          if !(jsIsNaN year) && !(jsIsNaN month) && !(jsIsNaN day) then
            setFullYearJs ns0 year (jsSub1 month) day
          else JsDate.valid ns0
      | none => JsDate.valid (setDate ns0 (getDate ns0 + dayOffset))
    let duration := oe - os
    { s with previewStart := some ns, previewEnd := some (jsAddMs ns duration) }
  | _, _, _, _ => s

/-- `handleMouseDown`: refuse when no originals are known, otherwise record
the anchor and raise both dragging flags. -/
def handleMouseDown (pos : ℚ × ℚ) (s : EngineState) : EngineState :=
  match s.originalStart with
  | none => s
  | some _ => { s with dragging := true, startPos := some pos, isDragging := true }

/-- `handleTouchStart`: same body as `handleMouseDown` on the first touch
point. -/
def handleTouchStart (pos : ℚ × ℚ) (s : EngineState) : EngineState :=
  match s.originalStart with
  | none => s
  | some _ => { s with dragging := true, startPos := some pos, isDragging := true }

/-- `handleMouseMove`: guard on `draggingRef` then delegate to `onMove`. -/
def handleMouseMove (cfg : DragConfig) (hover : Option String) (x y : ℚ)
    (s : EngineState) : EngineState :=
  if s.dragging then onMove cfg hover x y s else s

/-- `handleTouchMove`: guard on `draggingRef` then delegate to `onMove` at
the first touch point. -/
def handleTouchMove (cfg : DragConfig) (hover : Option String) (x y : ℚ)
    (s : EngineState) : EngineState :=
  if s.dragging then onMove cfg hover x y s else s

/-- `endDrag`: no-op when no session is active; otherwise clear both
dragging flags, invoke the commit callback once when both preview fields
are non-null and a callback was supplied (the emitted `Option` pair; an
Invalid Date is still a truthy object, so it commits), then reset the
preview pair and the anchor.  Note the originals are NOT cleared here:
only `bindEvent` touches them. -/
def endDrag (hasCb : Bool) (s : EngineState) : EngineState × Option (JsDate × JsDate) :=
  if s.dragging then
    let commit :=
      match s.previewStart, s.previewEnd, hasCb with
      | some a, some b, true => some (a, b)
      | _, _, _ => none
    ({ s with dragging := false, isDragging := false,
              previewStart := none, previewEnd := none, startPos := none },
     commit)
  else (s, none)

/-- `handleMouseUp = () => endDrag()`. -/
def handleMouseUp (hasCb : Bool) (s : EngineState) : EngineState × Option (JsDate × JsDate) :=
  endDrag hasCb s

/-- `handleTouchEnd = () => endDrag()`. -/
def handleTouchEnd (hasCb : Bool) (s : EngineState) : EngineState × Option (JsDate × JsDate) :=
  endDrag hasCb s

/-- `handleTouchCancel = () => endDrag()`. -/
def handleTouchCancel (hasCb : Bool) (s : EngineState) : EngineState × Option (JsDate × JsDate) :=
  endDrag hasCb s

/-- One external stimulus delivered to the engine's listeners (the `hover`
of a move is the DOM state under the pointer at that instant). -/
inductive DragInput where
  | bind (ev : Option (Int × Int))
  | mouseDown (x y : ℚ)
  | touchStart (x y : ℚ)
  | mouseMove (hover : Option String) (x y : ℚ)
  | touchMove (hover : Option String) (x y : ℚ)
  | mouseUp
  | touchEnd
  | touchCancel

/-- Dispatch one input to its handler; the second component is the commit
emitted to the callback (always `none` except on a release). -/
def step (cfg : DragConfig) (hasCb : Bool) (s : EngineState) :
    DragInput → EngineState × Option (JsDate × JsDate)
  | .bind ev => (bindEvent ev s, none)
  | .mouseDown x y => (handleMouseDown (x, y) s, none)
  | .touchStart x y => (handleTouchStart (x, y) s, none)
  | .mouseMove hover x y => (handleMouseMove cfg hover x y s, none)
  | .touchMove hover x y => (handleTouchMove cfg hover x y s, none)
  | .mouseUp => handleMouseUp hasCb s
  | .touchEnd => handleTouchEnd hasCb s
  | .touchCancel => handleTouchCancel hasCb s

/-- State reached after a list of inputs from the mount state. -/
def run (cfg : DragConfig) (hasCb : Bool) (inputs : List DragInput) : EngineState :=
  inputs.foldl (fun s i => (step cfg hasCb s i).1) initState

end DragMove

namespace DragMove

/-! Helper lemmas about the date arithmetic. -/

/-- Replacing the minutes field by its own value plus `k` shifts the instant
by exactly `k` minutes. -/
lemma setMinutes_add (t k : Int) : setMinutes t (getMinutes t + k) = t + k * msPerMinute := by
  unfold setMinutes; ring

/-- Replacing the day-of-month field by its own value plus `k` shifts the
instant by exactly `k` days. -/
lemma setDate_add (t k : Int) : setDate t (getDate t + k) = t + k * msPerDay := by
  unfold setDate; ring

/-- Shifting by whole days keeps the time of day. -/
lemma timeOfDay_add_days (t k : Int) : timeOfDay (t + k * msPerDay) = timeOfDay t := by
  unfold timeOfDay msPerDay; omega

/-- `setFullYear` keeps the time of day. -/
lemma timeOfDay_setFullYear (t y m d : Int) :
    timeOfDay (setFullYear t y m d) = timeOfDay t := by
  unfold setFullYear timeOfDay msPerDay
  omega

/-- Minutes depend only on the time of day. -/
lemma getMinutes_eq_of_tod {a b : Int} (h : timeOfDay a = timeOfDay b) :
    getMinutes a = getMinutes b := by
  unfold getMinutes; rw [h]

/-- Hours depend only on the time of day. -/
lemma getHours_eq_of_tod {a b : Int} (h : timeOfDay a = timeOfDay b) :
    getHours a = getHours b := by
  unfold getHours; rw [h]

/-- A `setFullYear` call is valid exactly when all three coerced arguments
are numbers, and then it is the calendar `setFullYear`. -/
lemma setFullYearJs_valid {t : Int} {a b c : JsVal} {p : Int}
    (h : setFullYearJs t a b c = .valid p) :
    ∃ yv mv dv, a = .num yv ∧ b = .num mv ∧ c = .num dv ∧ p = setFullYear t yv mv dv := by
  (cases a <;> cases b <;> cases c <;> simp [setFullYearJs] at h)
  exact ⟨_, _, _, rfl, rfl, rfl, h.symm⟩

/-- Calendar fields of any instant whose day was overwritten to 2024-03-15
(the `setFullYear t 2024 2 15` the snap branch performs for the attribute
`"2024-03-15"`; month is 0-based there, as in JavaScript). -/
lemma fields_of_mar15 (t : Int) :
    getFullYear (setFullYear t 2024 2 15) = 2024 ∧
    getMonth (setFullYear t 2024 2 15) = 2 ∧
    getDate (setFullYear t 2024 2 15) = 15 := by
  have h2 : ymdToDayNumber 2024 2 15 = 19797 := by decide
  have h : setFullYear t 2024 2 15 = 19797 * 86400000 + t % 86400000 := by
    unfold setFullYear timeOfDay msPerDay; rw [h2]
  have hdn : dayNumber (setFullYear t 2024 2 15) = 19797 := by
    rw [h]; unfold dayNumber msPerDay; omega
  unfold getFullYear getMonth getDate
  rw [hdn]
  decide

/-- With the pointer at the anchor's x coordinate the horizontal delta is 0,
so the candidate base equals the original start in both lock modes. -/
lemma ns0_trivial (cfg : DragConfig) (os : Int) (ax : ℚ) :
    (if cfg.lockTime then os
     else setMinutes os (getMinutes os +
       (if cfg.lockTime then 0 else jsRound ((ax - ax) / cfg.pxPerMinute)))) = os := by
  by_cases hlock : cfg.lockTime
  · simp [hlock]
  · have h0 : jsRound ((ax - ax) / cfg.pxPerMinute) = 0 := by
      norm_num [jsRound]
    rw [if_neg hlock, if_neg hlock, h0, setMinutes_add]
    ring

/-- A mid-drag state: session active, anchor `(0,0)`, original event
`[epoch 0, epoch 3600000]` (one hour), no preview published yet. -/
def sActive : EngineState := ⟨true, true, some (0, 0), some 0, some 3600000, none, none⟩

/-- A mid-drag state that already published the valid preview pair
`(100, 3600100)`. -/
def sRelease : EngineState :=
  ⟨true, true, some (0, 0), some 0, some 3600000,
   some (JsDate.valid 100), some (JsDate.valid 3600100)⟩

/-- A time-locked configuration with the default pixel mappings. -/
def lockConfig : DragConfig := ⟨true, 40, 1⟩

/-- C1: during an active drag, a pointer-move with no snap target under the
pointer publishes a preview pair whose end minus start equals the original
elapsed-time duration exactly — the candidate end is the candidate start
plus the original duration, so drag never alters the event's duration. -/
theorem onMove_preserves_duration (cfg : DragConfig) (x y : ℚ) (s : EngineState)
    (os oe : Int) (anchor : ℚ × ℚ)
    (hd : s.dragging = true) (hos : s.originalStart = some os)
    (hoe : s.originalEnd = some oe) (ha : s.startPos = some anchor) :
    ∃ p q, (onMove cfg none x y s).previewStart = some (JsDate.valid p) ∧
      (onMove cfg none x y s).previewEnd = some (JsDate.valid q) ∧ q - p = oe - os := by
  simp only [onMove, hd, hos, hoe, ha]
  exact ⟨_, _, rfl, rfl, by ring⟩

/-- C1 witness: concrete one-hour event dragged one day down. -/
theorem onMove_preserves_duration_witness :
    ∃ p q, (onMove defaultConfig none 0 40 sActive).previewStart = some (JsDate.valid p) ∧
      (onMove defaultConfig none 0 40 sActive).previewEnd = some (JsDate.valid q) ∧
      q - p = 3600000 - 0 :=
  onMove_preserves_duration defaultConfig 0 40 sActive 0 3600000 (0, 0) rfl rfl rfl rfl

/-- C2: during an active drag, hovering a drop-zone whose attribute parses
(here `"2024-03-15"`) overwrites the candidate start's year/month/day to
that date — `dayOffset` is not applied (no dependence on the vertical
coordinate `y`), and the preview's date fields are `(2024, 3, 15)` (JS
`getMonth` is 0-based, so `getMonth + 1 = 3`). -/
theorem onMove_snap_overrides_date (cfg : DragConfig) (x y : ℚ) (s : EngineState)
    (os oe : Int) (anchor : ℚ × ℚ)
    (hd : s.dragging = true) (hos : s.originalStart = some os)
    (hoe : s.originalEnd = some oe) (ha : s.startPos = some anchor) :
    ∃ p, (onMove cfg (some "2024-03-15") x y s).previewStart = some (JsDate.valid p) ∧
      p = setFullYear (if cfg.lockTime then os
            else setMinutes os (getMinutes os + jsRound ((x - anchor.1) / cfg.pxPerMinute)))
          2024 2 15 ∧
      getFullYear p = 2024 ∧ getMonth p + 1 = 3 ∧ getDate p = 15 := by
  have h0 : destructured "2024-03-15" 0 = .num 2024 := by decide
  have h1 : destructured "2024-03-15" 1 = .num 3 := by decide
  have h2 : destructured "2024-03-15" 2 = .num 15 := by decide
  simp only [onMove, hd, hos, hoe, ha, h0, h1, h2]
  rw [if_neg (by decide : ¬ ("2024-03-15" = ""))]
  simp only [jsIsNaN, jsSub1, setFullYearJs, Bool.not_false, Bool.and_self, if_true,
    (by decide : (3:Int) - 1 = 2)]
  refine ⟨_, rfl, ?_, (fields_of_mar15 _).1, ?_, (fields_of_mar15 _).2.2⟩
  · by_cases hlock : cfg.lockTime <;> simp [hlock]
  · have := (fields_of_mar15 (if cfg.lockTime = true then os
      else setMinutes os (getMinutes os +
        if cfg.lockTime = true then 0 else jsRound ((x - anchor.1) / cfg.pxPerMinute)))).2.1
    omega

/-- C2 witness: hovering the 2024-03-15 drop-zone with a large concurrent
vertical delta still lands on year 2024. -/
theorem onMove_snap_overrides_date_witness :
    ((onMove defaultConfig (some "2024-03-15") 0 400 sActive).previewStart.map
      (fun d => match d with | JsDate.invalid => none | JsDate.valid t => some (getFullYear t)))
      = some (some 2024) := by
  obtain ⟨p, hp, _, hy, _, _⟩ :=
    onMove_snap_overrides_date defaultConfig 0 400 sActive 0 3600000 (0, 0) rfl rfl rfl rfl
  rw [hp, Option.map_some']
  simp [hy]

end DragMove

namespace DragMove

/-- C3 counterexample: with `lockTime = true`, hovering the drop-zone
attribute `"2024-03"` (two numeric tokens, missing day) passes the
`Number.isNaN` guard — `Number.isNaN(undefined)` is false — so
`setFullYear` runs with an undefined day and the published preview start is
an Invalid Date whose minute reading is NaN (`none`), not the original
start's minute (0): the minute component does change. -/
theorem lockTime_invalid_preview_counterexample :
    (onMove lockConfig (some "2024-03") 0 0 sActive).previewStart = some JsDate.invalid ∧
    jsGetMinutes JsDate.invalid = none ∧
    jsGetMinutes (JsDate.valid 0) = some 0 ∧
    (none : Option Int) ≠ some 0 := by decide

/-- C3 amended: with `lockTime = true`, horizontal motion has no temporal
effect — for every move in an active session, whenever the published
preview start is a valid date its minute and hour components equal the
original start's (the only escape is the Invalid-Date preview produced by
a snap attribute that passes the NaN guard with a missing position). -/
theorem lockTime_valid_preview_time_fields (cfg : DragConfig) (hover : Option String)
    (x y : ℚ) (s : EngineState) (os oe : Int) (anchor : ℚ × ℚ)
    (hd : s.dragging = true) (hos : s.originalStart = some os)
    (hoe : s.originalEnd = some oe) (ha : s.startPos = some anchor)
    (hl : cfg.lockTime = true) :
    ∀ p, (onMove cfg hover x y s).previewStart = some (JsDate.valid p) →
      getMinutes p = getMinutes os ∧ getHours p = getHours os := by
  intro p hp
  have key : ∀ q : Int,
      (timeOfDay q = timeOfDay os) → getMinutes q = getMinutes os ∧ getHours q = getHours os :=
    fun q h => ⟨getMinutes_eq_of_tod h, getHours_eq_of_tod h⟩
  rcases hover with _ | attr
  · simp only [onMove, hd, hos, hoe, ha, hl, if_true, Option.some.injEq,
      JsDate.valid.injEq] at hp
    subst hp
    rw [setDate_add]
    exact key _ (timeOfDay_add_days _ _)
  · by_cases hattr : attr = ""
    · subst hattr
      simp only [onMove, hd, hos, hoe, ha, hl, if_true, if_pos rfl, Option.some.injEq,
        JsDate.valid.injEq] at hp
      subst hp
      rw [setDate_add]
      exact key _ (timeOfDay_add_days _ _)
    · simp only [onMove, hd, hos, hoe, ha, hl, if_true, if_neg hattr] at hp
      by_cases hg : (!(jsIsNaN (destructured attr 0)) && !(jsIsNaN (destructured attr 1))
          && !(jsIsNaN (destructured attr 2))) = true
      · rw [if_pos hg] at hp
        simp only [Option.some.injEq] at hp
        obtain ⟨yv, mv, dv, _, _, _, hpeq⟩ := setFullYearJs_valid hp
        subst hpeq
        exact key _ (timeOfDay_setFullYear _ _ _ _)
      · rw [if_neg hg] at hp
        simp only [Option.some.injEq, JsDate.valid.injEq] at hp
        subst hp
        exact key _ rfl

/-- C3 amended witness: a time-locked snap onto 2024-03-15 publishes the
valid instant `1710460800000` (2024-03-15 00:00), whose minute and hour
match the original's. -/
theorem lockTime_valid_preview_time_fields_witness :
    getMinutes 1710460800000 = getMinutes 0 ∧ getHours 1710460800000 = getHours 0 :=
  lockTime_valid_preview_time_fields lockConfig (some "2024-03-15") 77 40 sActive
    0 3600000 (0, 0) rfl rfl rfl rfl rfl 1710460800000 (by decide)

/-- C4: on release, the commit callback is invoked exactly once with the
current preview pair when a session is active, both preview fields are
non-null and a callback was supplied (the emitted pair is `some (a, b)` and
the session is reset); releasing with no active session leaves the state
untouched and emits nothing; releasing when no preview exists emits
nothing. -/
theorem endDrag_commit_once (hasCb : Bool) (s : EngineState) :
    (∀ a b, s.dragging = true → s.previewStart = some a → s.previewEnd = some b →
      hasCb = true →
      endDrag hasCb s =
        ({ s with dragging := false, isDragging := false,
                  previewStart := none, previewEnd := none, startPos := none }, some (a, b)))
    ∧ (s.dragging = false → endDrag hasCb s = (s, none))
    ∧ ((s.previewStart = none ∨ s.previewEnd = none) → (endDrag hasCb s).2 = none) := by
  refine ⟨?_, ?_, ?_⟩
  · intro a b hd hp hq hcb
    subst hcb
    simp only [endDrag, hd, hp, hq, if_true]
  · intro hd
    simp only [endDrag, hd, Bool.false_eq_true, if_false]
  · intro hpq
    rcases hd : s.dragging with _ | _
    · simp only [endDrag, hd, Bool.false_eq_true, if_false]
    · rcases hpq with hp | hq
      · simp only [endDrag, hd, hp, if_true]
      · rcases hp : s.previewStart with _ | a
        · simp only [endDrag, hd, hp, if_true]
        · simp only [endDrag, hd, hp, hq, if_true]

/-- C4 witness: releasing the concrete state with preview `(100, 3600100)`
and a callback supplied commits exactly that pair. -/
theorem endDrag_commit_once_witness :
    (endDrag true sRelease).2 = some (JsDate.valid 100, JsDate.valid 3600100) := by
  rw [(endDrag_commit_once true sRelease).1 (JsDate.valid 100) (JsDate.valid 3600100)
    rfl rfl rfl rfl]

/-- C5: touch-cancel runs the same `endDrag` path as touch-end: it is
extensionally identical to it, it still commits when a valid preview pair
exists and a callback was supplied, and whenever a session was active it
clears the dragging flags, the preview pair and the anchor. -/
theorem touchCancel_matches_touchEnd (hasCb : Bool) (s : EngineState) :
    handleTouchCancel hasCb s = handleTouchEnd hasCb s ∧
    (∀ a b, s.dragging = true → s.previewStart = some a → s.previewEnd = some b →
      hasCb = true → (handleTouchCancel hasCb s).2 = some (a, b)) ∧
    (s.dragging = true →
      ((handleTouchCancel hasCb s).1.dragging = false ∧
       (handleTouchCancel hasCb s).1.isDragging = false ∧
       (handleTouchCancel hasCb s).1.previewStart = none ∧
       (handleTouchCancel hasCb s).1.previewEnd = none ∧
       (handleTouchCancel hasCb s).1.startPos = none)) := by
  refine ⟨rfl, ?_, ?_⟩
  · intro a b hd hp hq hcb
    subst hcb
    simp [handleTouchCancel, endDrag, hd, hp, hq]
  · intro hd
    simp [handleTouchCancel, endDrag, hd]

/-- C5 witness: a touch-cancel on the concrete previewing state still
commits the preview pair. -/
theorem touchCancel_matches_touchEnd_witness :
    (handleTouchCancel true sRelease).2 = some (JsDate.valid 100, JsDate.valid 3600100) :=
  (touchCancel_matches_touchEnd true sRelease).2.1 (JsDate.valid 100) (JsDate.valid 3600100)
    rfl rfl rfl rfl

end DragMove

namespace DragMove

/-- C6 counterexample: with the malformed drop-zone attribute `"garbage"`
under the pointer and a vertical delta of one `pxPerDay` (so
`dayOffset = 1`), the code publishes the unshifted candidate
(`valid 0`), NOT the `dayOffset` fallback `setDate 0 (getDate 0 + 1) =
86400000` the claim requires: a truthy attribute never reaches the
`else` branch that applies the vertical day offset. -/
theorem malformed_attr_fallback_counterexample :
    (onMove defaultConfig (some "garbage") 0 40 sActive).previewStart
      = some (JsDate.valid 0) ∧
    setDate 0 (getDate 0 + 1) = 86400000 ∧
    ((0 : Int) ≠ 86400000) := by
  refine ⟨?_, by decide, by decide⟩
  have hg : destructured "garbage" 0 = .nan := by decide
  simp only [onMove, sActive, defaultConfig, hg,
    if_neg (by decide : ¬ ("garbage" = ""))]
  simp only [jsIsNaN, Bool.not_true, Bool.false_and, Bool.and_false, if_false]
  norm_num [jsRound, setMinutes]

/-- C6 amended: a truthy drop-zone attribute that does not parse to three
valid integers never falls back to the vertical `dayOffset`.  Two cases:
if some destructured position is the number NaN, the `Number.isNaN` guard
fails and the engine publishes the minute-adjusted original unchanged; if
the guard passes (no NaN) but a position is missing (`undefined` —
`Number.isNaN(undefined)` is false), `setFullYear` runs with a NaN
component and the engine publishes an Invalid-Date preview pair.  In
neither case does any operation throw (every step of the model is total). -/
theorem malformed_attr_never_dayOffset (cfg : DragConfig) (x y : ℚ) (s : EngineState)
    (os oe : Int) (anchor : ℚ × ℚ) (attr : String)
    (hd : s.dragging = true) (hos : s.originalStart = some os)
    (hoe : s.originalEnd = some oe) (ha : s.startPos = some anchor)
    (hattr : attr ≠ "") :
    ((jsIsNaN (destructured attr 0) = true ∨ jsIsNaN (destructured attr 1) = true ∨
        jsIsNaN (destructured attr 2) = true) →
      (onMove cfg (some attr) x y s).previewStart
        = some (JsDate.valid (if cfg.lockTime then os
            else setMinutes os (getMinutes os + jsRound ((x - anchor.1) / cfg.pxPerMinute)))))
    ∧ ((jsIsNaN (destructured attr 0) = false ∧ jsIsNaN (destructured attr 1) = false ∧
          jsIsNaN (destructured attr 2) = false) →
        (destructured attr 0 = JsVal.undef ∨ destructured attr 1 = JsVal.undef ∨
          destructured attr 2 = JsVal.undef) →
        ((onMove cfg (some attr) x y s).previewStart = some JsDate.invalid ∧
         (onMove cfg (some attr) x y s).previewEnd = some JsDate.invalid)) := by
  constructor
  · intro hnan
    have hg : (!(jsIsNaN (destructured attr 0)) && !(jsIsNaN (destructured attr 1))
        && !(jsIsNaN (destructured attr 2))) = false := by
      rcases hnan with h | h | h <;> simp [h]
    simp only [onMove, hd, hos, hoe, ha, if_neg hattr, hg, Bool.false_eq_true, if_false]
    congr 1
    by_cases hlock : cfg.lockTime <;> simp [hlock]
  · intro hok hundef
    have hinv : setFullYearJs
        (if cfg.lockTime = true then os
         else setMinutes os (getMinutes os +
           if cfg.lockTime = true then 0 else jsRound ((x - anchor.1) / cfg.pxPerMinute)))
        (destructured attr 0) (jsSub1 (destructured attr 1)) (destructured attr 2)
        = JsDate.invalid := by
      rcases hundef with h | h | h
      · rw [h]
        cases jsSub1 (destructured attr 1) <;> cases destructured attr 2 <;> rfl
      · rw [h]
        cases destructured attr 0 <;> cases destructured attr 2 <;> rfl
      · rw [h]
        cases destructured attr 0 <;> cases jsSub1 (destructured attr 1) <;> rfl
    have hg : (!(jsIsNaN (destructured attr 0)) && !(jsIsNaN (destructured attr 1))
        && !(jsIsNaN (destructured attr 2))) = true := by
      simp [hok.1, hok.2.1, hok.2.2]
    simp only [onMove, hd, hos, hoe, ha, if_neg hattr, hg, if_true, hinv]
    simp [jsAddMs]

/-- C6 amended witness: the attribute `"2024-03"` (missing day) passes the
NaN guard and publishes an Invalid-Date preview pair. -/
theorem malformed_attr_never_dayOffset_witness :
    (onMove defaultConfig (some "2024-03") 0 40 sActive).previewStart
      = some JsDate.invalid ∧
    (onMove defaultConfig (some "2024-03") 0 40 sActive).previewEnd
      = some JsDate.invalid :=
  (malformed_attr_never_dayOffset defaultConfig 0 40 sActive 0 3600000 (0, 0) "2024-03"
      rfl rfl rfl rfl (by decide)).2
    ⟨by decide, by decide, by decide⟩ (Or.inr (Or.inr (by decide)))

/-- C7: the day offset is `round(deltaY / pxPerDay)` with round-half-up:
a vertical delta of `1.5 * pxPerDay` moves the preview start two whole days,
a delta of `0.49 * pxPerDay` moves it zero days, and `jsRound` is a nearest
rounding (it never strays more than half a unit from its argument). -/
theorem dayOffset_rounding (cfg : DragConfig) (s : EngineState)
    (os oe : Int) (anchor : ℚ × ℚ)
    (hd : s.dragging = true) (hos : s.originalStart = some os)
    (hoe : s.originalEnd = some oe) (ha : s.startPos = some anchor)
    (hpx : 0 < cfg.pxPerDay) :
    (onMove cfg none anchor.1 (anchor.2 + 3/2 * cfg.pxPerDay) s).previewStart
      = some (JsDate.valid (os + 2 * msPerDay)) ∧
    (onMove cfg none anchor.1 (anchor.2 + 49/100 * cfg.pxPerDay) s).previewStart
      = some (JsDate.valid os) ∧
    (∀ q : ℚ, |q - (jsRound q : ℚ)| ≤ 1/2) := by
  have hne : cfg.pxPerDay ≠ 0 := ne_of_gt hpx
  refine ⟨?_, ?_, ?_⟩
  · simp only [onMove, hd, hos, hoe, ha]
    have hdiv : (anchor.2 + 3/2 * cfg.pxPerDay - anchor.2) / cfg.pxPerDay = 3/2 := by
      field_simp
      ring
    rw [hdiv, ns0_trivial]
    have hr : jsRound (3/2 : ℚ) = 2 := by norm_num [jsRound]
    rw [hr, setDate_add]
  · simp only [onMove, hd, hos, hoe, ha]
    have hdiv : (anchor.2 + 49/100 * cfg.pxPerDay - anchor.2) / cfg.pxPerDay = 49/100 := by
      field_simp
      ring
    rw [hdiv, ns0_trivial]
    have hr : jsRound (49/100 : ℚ) = 0 := by norm_num [jsRound]
    rw [hr, setDate_add]
    norm_num
  · intro q
    rw [abs_le]
    constructor
    · have h := Int.floor_le (q + 1/2)
      unfold jsRound
      push_cast at h ⊢
      linarith
    · have h := Int.lt_floor_add_one (q + 1/2)
      unfold jsRound
      push_cast at h ⊢
      linarith

/-- C7 witness: with the default 40 px/day mapping, a 60-pixel vertical
delta (1.5 days) lands two days later. -/
theorem dayOffset_rounding_witness :
    (onMove defaultConfig none ((0 : ℚ), (0 : ℚ)).1
        (((0 : ℚ), (0 : ℚ)).2 + 3/2 * defaultConfig.pxPerDay) sActive).previewStart
      = some (JsDate.valid (0 + 2 * msPerDay)) :=
  (dayOffset_rounding defaultConfig sActive 0 3600000 (0, 0) rfl rfl rfl rfl
    (by norm_num [defaultConfig])).1

end DragMove

namespace DragMove

/-- C8 counterexample: releasing the concrete mid-drag state `sRelease`
does clear the preview pair and the anchor, but the snapshotted
`originalStart` survives as `some 0` — the engine still holds session data
while idle, so "the snapshotted originalStart/originalEnd are cleared" is
false of the code. -/
theorem endDrag_keeps_originals_counterexample :
    (endDrag true sRelease).1.previewStart = none ∧
    (endDrag true sRelease).1.startPos = none ∧
    (endDrag true sRelease).1.originalStart = some 0 ∧
    (endDrag true sRelease).1.originalStart ≠ none := by decide

/-- C8 amended: after every release from an active session, the dragging
flags, the preview pair and the anchor are cleared, while the snapshotted
originals are retained unchanged (they are only rewritten when the engine
is re-bound to a different event). -/
theorem endDrag_clears_preview_and_anchor (hasCb : Bool) (s : EngineState)
    (hd : s.dragging = true) :
    (endDrag hasCb s).1.dragging = false ∧
    (endDrag hasCb s).1.isDragging = false ∧
    (endDrag hasCb s).1.previewStart = none ∧
    (endDrag hasCb s).1.previewEnd = none ∧
    (endDrag hasCb s).1.startPos = none ∧
    (endDrag hasCb s).1.originalStart = s.originalStart ∧
    (endDrag hasCb s).1.originalEnd = s.originalEnd := by
  simp [endDrag, hd]

/-- C8 amended witness: releasing `sActive` clears preview and anchor and
keeps the originals. -/
theorem endDrag_clears_preview_and_anchor_witness :
    (endDrag false sActive).1.dragging = false ∧
    (endDrag false sActive).1.isDragging = false ∧
    (endDrag false sActive).1.previewStart = none ∧
    (endDrag false sActive).1.previewEnd = none ∧
    (endDrag false sActive).1.startPos = none ∧
    (endDrag false sActive).1.originalStart = sActive.originalStart ∧
    (endDrag false sActive).1.originalEnd = sActive.originalEnd :=
  endDrag_clears_preview_and_anchor false sActive rfl

/-- C9 counterexample: a second mouse-down at `(5, 5)` while `sActive` is
already dragging (anchor `(0, 0)`) is not ignored — it overwrites the
recorded anchor position, so the claim "it does not change the recorded
anchor position" is false of the code. -/
theorem second_mousedown_moves_anchor_counterexample :
    (handleMouseDown (5, 5) sActive).startPos = some (5, 5) ∧
    sActive.startPos = some (0, 0) ∧
    (handleMouseDown (5, 5) sActive).startPos ≠ sActive.startPos := by decide

/-- C9 amended: a second pointer-down (or touch-start) while a session is
active is not re-entrancy-guarded: the only guard is that originals are
known.  It leaves the snapshotted originals untouched (no handler
re-snapshots them) and leaves the dragging flags raised, but it overwrites
the recorded anchor position with the new pointer position. -/
theorem second_pointer_down_reanchors (s : EngineState) (pos : ℚ × ℚ)
    (hd : s.dragging = true) (hos : s.originalStart.isSome = true) :
    handleMouseDown pos s =
      { s with dragging := true, isDragging := true, startPos := some pos } ∧
    handleTouchStart pos s =
      { s with dragging := true, isDragging := true, startPos := some pos } ∧
    (handleMouseDown pos s).originalStart = s.originalStart ∧
    (handleMouseDown pos s).originalEnd = s.originalEnd := by
  rcases ho : s.originalStart with _ | v
  · rw [ho] at hos; simp at hos
  · simp [handleMouseDown, handleTouchStart, ho]

/-- C9 amended witness: the second mouse-down on `sActive` re-anchors to
`(5, 5)` and keeps the originals. -/
theorem second_pointer_down_reanchors_witness :
    handleMouseDown (5, 5) sActive =
      { sActive with dragging := true, isDragging := true, startPos := some (5, 5) } ∧
    handleTouchStart (5, 5) sActive =
      { sActive with dragging := true, isDragging := true, startPos := some (5, 5) } ∧
    (handleMouseDown (5, 5) sActive).originalStart = sActive.originalStart ∧
    (handleMouseDown (5, 5) sActive).originalEnd = sActive.originalEnd :=
  second_pointer_down_reanchors sActive (5, 5) rfl rfl

/-! Invariant machinery for C10: the preview pair is never half-populated. -/

/-- A move keeps the pair property: either it is a guarded no-op or it sets
both preview fields to `some`. -/
lemma onMove_pair (cfg : DragConfig) (hover : Option String) (x y : ℚ) (s : EngineState)
    (h : s.previewStart.isSome = s.previewEnd.isSome) :
    (onMove cfg hover x y s).previewStart.isSome
      = (onMove cfg hover x y s).previewEnd.isSome := by
  rcases hd : s.dragging with _ | _ <;>
  rcases hos : s.originalStart with _ | os <;>
  rcases hoe : s.originalEnd with _ | oe <;>
  rcases ha : s.startPos with _ | anchor <;>
  simp only [onMove, hd, hos, hoe, ha] <;>
  simp [h]

/-- Every step of the engine keeps the pair property. -/
lemma step_pair (cfg : DragConfig) (hasCb : Bool) (s : EngineState) (i : DragInput)
    (h : s.previewStart.isSome = s.previewEnd.isSome) :
    ((step cfg hasCb s i).1.previewStart.isSome
      = (step cfg hasCb s i).1.previewEnd.isSome) := by
  cases i with
  | bind ev =>
    rcases ev with _ | ⟨st, en⟩ <;> simp [step, bindEvent]
  | mouseDown x y =>
    rcases ho : s.originalStart with _ | v <;> simp [step, handleMouseDown, ho, h]
  | touchStart x y =>
    rcases ho : s.originalStart with _ | v <;> simp [step, handleTouchStart, ho, h]
  | mouseMove hover x y =>
    by_cases hd : s.dragging
    · simpa [step, handleMouseMove, hd] using onMove_pair cfg hover x y s h
    · simp [step, handleMouseMove, hd, h]
  | touchMove hover x y =>
    by_cases hd : s.dragging
    · simpa [step, handleTouchMove, hd] using onMove_pair cfg hover x y s h
    · simp [step, handleTouchMove, hd, h]
  | mouseUp =>
    by_cases hd : s.dragging <;> simp [step, handleMouseUp, endDrag, hd, h]
  | touchEnd =>
    by_cases hd : s.dragging <;> simp [step, handleTouchEnd, endDrag, hd, h]
  | touchCancel =>
    by_cases hd : s.dragging <;> simp [step, handleTouchCancel, endDrag, hd, h]

/-- Fold the step invariant along a list of inputs. -/
lemma run_pair_aux (cfg : DragConfig) (hasCb : Bool) :
    ∀ (l : List DragInput) (s : EngineState),
      s.previewStart.isSome = s.previewEnd.isSome →
      ((l.foldl (fun s i => (step cfg hasCb s i).1) s).previewStart.isSome
        = (l.foldl (fun s i => (step cfg hasCb s i).1) s).previewEnd.isSome)
  | [], _, h => h
  | i :: l, s, h => run_pair_aux cfg hasCb l _ (step_pair cfg hasCb s i h)

/-- C10: after every sequence of engine operations (binding or re-binding an
event, pointer-downs, pointer-moves, releases) from the mount state, the
preview pair is never half-populated: `previewStart` is `some` exactly when
`previewEnd` is. -/
theorem preview_pair_never_half_populated (cfg : DragConfig) (hasCb : Bool)
    (inputs : List DragInput) :
    (run cfg hasCb inputs).previewStart.isSome
      = (run cfg hasCb inputs).previewEnd.isSome :=
  run_pair_aux cfg hasCb inputs initState rfl

/-! Model-soundness complement: the non-null assertion `startPosRef.current!`
in the source's `onMove` is justified — in every reachable state, an active
dragging flag comes with a recorded anchor. -/

/-- A move changes neither the dragging flag nor the anchor. -/
lemma onMove_keeps_flags (cfg : DragConfig) (hover : Option String) (x y : ℚ)
    (s : EngineState) :
    (onMove cfg hover x y s).dragging = s.dragging ∧
    (onMove cfg hover x y s).startPos = s.startPos := by
  rcases hd : s.dragging with _ | _ <;>
  rcases hos : s.originalStart with _ | os <;>
  rcases hoe : s.originalEnd with _ | oe <;>
  rcases ha : s.startPos with _ | anchor <;>
  simp only [onMove, hd, hos, hoe, ha] <;> simp [hd, ha]

/-- Every step keeps the dragging-implies-anchor invariant. -/
lemma step_anchor (cfg : DragConfig) (hasCb : Bool) (s : EngineState) (i : DragInput)
    (h : s.dragging = true → s.startPos.isSome) :
    ((step cfg hasCb s i).1.dragging = true → (step cfg hasCb s i).1.startPos.isSome) := by
  cases i with
  | bind ev =>
    rcases ev with _ | ⟨st, en⟩ <;> simpa [step, bindEvent] using h
  | mouseDown x y =>
    rcases ho : s.originalStart with _ | v
    · simp only [step, handleMouseDown, ho]
      exact h
    · simp [step, handleMouseDown, ho]
  | touchStart x y =>
    rcases ho : s.originalStart with _ | v
    · simp only [step, handleTouchStart, ho]
      exact h
    · simp [step, handleTouchStart, ho]
  | mouseMove hover x y =>
    by_cases hd : s.dragging
    · have hk := onMove_keeps_flags cfg hover x y s
      intro h2
      simp only [step, handleMouseMove, hd, if_true] at h2 ⊢
      rw [hk.2]
      exact h (hk.1 ▸ h2)
    · simp only [step, handleMouseMove, hd, if_false]
      exact h
  | touchMove hover x y =>
    by_cases hd : s.dragging
    · have hk := onMove_keeps_flags cfg hover x y s
      intro h2
      simp only [step, handleTouchMove, hd, if_true] at h2 ⊢
      rw [hk.2]
      exact h (hk.1 ▸ h2)
    · simp only [step, handleTouchMove, hd, if_false]
      exact h
  | mouseUp =>
    by_cases hd : s.dragging <;> simp [step, handleMouseUp, endDrag, hd, h]
  | touchEnd =>
    by_cases hd : s.dragging <;> simp [step, handleTouchEnd, endDrag, hd, h]
  | touchCancel =>
    by_cases hd : s.dragging <;> simp [step, handleTouchCancel, endDrag, hd, h]

/-- Fold the anchor invariant along a list of inputs. -/
lemma run_dragging_startPos_aux (cfg : DragConfig) (hasCb : Bool) :
    ∀ (l : List DragInput) (s : EngineState),
      (s.dragging = true → s.startPos.isSome) →
      ((l.foldl (fun s i => (step cfg hasCb s i).1) s).dragging = true
        → (l.foldl (fun s i => (step cfg hasCb s i).1) s).startPos.isSome)
  | [], _, h => h
  | i :: l, s, h => run_dragging_startPos_aux cfg hasCb l _ (step_anchor cfg hasCb s i h)

/-- In every reachable state, dragging implies a recorded anchor. -/
lemma run_dragging_startPos (cfg : DragConfig) (hasCb : Bool) (inputs : List DragInput) :
    (run cfg hasCb inputs).dragging = true → (run cfg hasCb inputs).startPos.isSome :=
  run_dragging_startPos_aux cfg hasCb inputs initState (by simp [initState])

end DragMove
